import Mathlib

/-!
Verification of the ACE-Step handler utility modules
(`acestep/handler_modules/audio_utils.py` and
`acestep/handler_modules/metadata_builder.py`) against their
natural-language specification.

The Python functions are shallowly embedded: Python dynamic values that
flow through the metadata dictionaries become the sum type `PyVal`
(integers, floats as rationals, strings, `None`); Python dicts become
association lists with first-match lookup; functions that can raise
become `Except`-valued; `torch` tensors become lists (a [channels,
samples] audio buffer is a `List (List Rat)`); the band-limited
resampler, delegated by the source to `torchaudio.functional.resample`,
is an explicit function parameter.
-/

/-- A Python value as it occurs in the metadata dictionaries of
`metadata_builder.py`: an `int`, a `float` (modelled as a rational),
a `str`, or `None`. -/
inductive PyVal where
  | int (n : Int)
  | float (q : Rat)
  | str (s : String)
  | none
deriving DecidableEq, Repr

/-- Truncation of a rational toward zero, modelling Python `int(x)`
applied to a float (`int(2.7) = 2`, `int(-2.7) = -2`). -/
def ratTrunc (q : Rat) : Int :=
  q.num.tdiv (q.den : Int)

/-- Python `str(v)` as used by the f-string interpolation in
`dict_to_meta_string`: integers and strings render canonically and
`None` renders as `"None"`.  (Float rendering is a model choice; no
verified property depends on it.) -/
def pyStr : PyVal → String
  | .int n => toString n
  | .float q => toString q
  | .str s => s
  | .none => "None"

/-- A Python dict with the keys that `dict_to_meta_string` inspects,
modelled as an association list; `dictGet d k` is `d.get(k)`
(first-match lookup, `Option.none` when the key is absent). -/
def dictGet (d : List (String × PyVal)) (k : String) : Option PyVal :=
  (d.find? (fun kv => kv.1 == k)).map (fun kv => kv.2)

/-- `create_default_meta` from `metadata_builder.py`. -/
def create_default_meta : String :=
  "- bpm: N/A\n" ++
  "- timesignature: N/A\n" ++
  "- keyscale: N/A\n" ++
  "- duration: 30 seconds\n"

/-- `dict_to_meta_string` from `metadata_builder.py`: resolves the four
fields with `dict.get` fallback chains, formats the duration, and emits
the fixed four-line block. -/
def dict_to_meta_string (meta_dict : List (String × PyVal)) : String :=
  let bpm := (dictGet meta_dict "bpm").getD
    ((dictGet meta_dict "tempo").getD (.str "N/A"))
  let timesignature := (dictGet meta_dict "timesignature").getD
    ((dictGet meta_dict "time_signature").getD (.str "N/A"))
  let keyscale := (dictGet meta_dict "keyscale").getD
    ((dictGet meta_dict "key").getD ((dictGet meta_dict "scale").getD (.str "N/A")))
  let duration := (dictGet meta_dict "duration").getD
    ((dictGet meta_dict "length").getD (.int 30))
  let durationStr :=
    match duration with
    | .int n => toString n ++ " seconds"
    | .float q => toString (ratTrunc q) ++ " seconds"
    | .str s => s
    | .none => "30 seconds"
  "- bpm: " ++ pyStr bpm ++ "\n" ++
  "- timesignature: " ++ pyStr timesignature ++ "\n" ++
  "- keyscale: " ++ pyStr keyscale ++ "\n" ++
  "- duration: " ++ durationStr ++ "\n"

/-- Spec-side resolver for the bpm field, following the spec's words:
`bpm` falls back to `tempo` falls back to `"N/A"`. -/
def resolve_bpm (d : List (String × PyVal)) : PyVal :=
  match dictGet d "bpm" with
  | some v => v
  | none =>
    match dictGet d "tempo" with
    | some v => v
    | none => .str "N/A"

/-- Spec-side resolver for the time-signature field: `timesignature`
falls back to `time_signature` falls back to `"N/A"`. -/
def resolve_timesignature (d : List (String × PyVal)) : PyVal :=
  match dictGet d "timesignature" with
  | some v => v
  | none =>
    match dictGet d "time_signature" with
    | some v => v
    | none => .str "N/A"

/-- Spec-side resolver for the key-scale field: `keyscale` falls back to
`key` falls back to `scale` falls back to `"N/A"`. -/
def resolve_keyscale (d : List (String × PyVal)) : PyVal :=
  match dictGet d "keyscale" with
  | some v => v
  | none =>
    match dictGet d "key" with
    | some v => v
    | none =>
      match dictGet d "scale" with
      | some v => v
      | none => .str "N/A"

/-- Spec-side resolver for the duration field: `duration` falls back to
`length` falls back to `30`. -/
def resolve_duration (d : List (String × PyVal)) : PyVal :=
  match dictGet d "duration" with
  | some v => v
  | none =>
    match dictGet d "length" with
    | some v => v
    | none => .int 30

/-- Spec-side duration rendering: a numeric duration becomes its
truncated integer followed by `" seconds"`, a string duration is kept
verbatim, and any non-numeric non-string duration coerces to the
default `"30 seconds"`. -/
def render_duration : PyVal → String
  | .int n => toString n ++ " seconds"
  | .float q => toString (ratTrunc q) ++ " seconds"
  | .str s => s
  | .none => "30 seconds"

/-- Spec-side shape of the output: exactly four newline-terminated lines
`- bpm: ...`, `- timesignature: ...`, `- keyscale: ...`,
`- duration: ...`, in that fixed order. -/
def meta_block (bpm timesignature keyscale duration : String) : String :=
  "- bpm: " ++ bpm ++ "\n" ++
  "- timesignature: " ++ timesignature ++ "\n" ++
  "- keyscale: " ++ keyscale ++ "\n" ++
  "- duration: " ++ duration ++ "\n"

theorem resolve_bpm_eq (d : List (String × PyVal)) :
    (dictGet d "bpm").getD ((dictGet d "tempo").getD (.str "N/A")) = resolve_bpm d := by
  unfold resolve_bpm
  cases dictGet d "bpm" <;> cases dictGet d "tempo" <;> rfl

theorem resolve_timesignature_eq (d : List (String × PyVal)) :
    (dictGet d "timesignature").getD ((dictGet d "time_signature").getD (.str "N/A"))
      = resolve_timesignature d := by
  unfold resolve_timesignature
  cases dictGet d "timesignature" <;> cases dictGet d "time_signature" <;> rfl

theorem resolve_keyscale_eq (d : List (String × PyVal)) :
    (dictGet d "keyscale").getD
      ((dictGet d "key").getD ((dictGet d "scale").getD (.str "N/A")))
      = resolve_keyscale d := by
  unfold resolve_keyscale
  cases dictGet d "keyscale" <;> cases dictGet d "key" <;> cases dictGet d "scale" <;> rfl

theorem resolve_duration_eq (d : List (String × PyVal)) :
    (dictGet d "duration").getD ((dictGet d "length").getD (.int 30))
      = resolve_duration d := by
  unfold resolve_duration
  cases dictGet d "duration" <;> cases dictGet d "length" <;> rfl

theorem dict_to_meta_string_unfold (d : List (String × PyVal)) :
    dict_to_meta_string d =
      meta_block (pyStr (resolve_bpm d)) (pyStr (resolve_timesignature d))
        (pyStr (resolve_keyscale d)) (render_duration (resolve_duration d)) := by
  unfold dict_to_meta_string meta_block
  rw [resolve_bpm_eq, resolve_timesignature_eq, resolve_keyscale_eq, resolve_duration_eq]
  cases resolve_duration d <;> rfl

/-- C1: for every metadata mapping, `dict_to_meta_string` resolves the
four fields along the fallback chains bpm←tempo←"N/A",
timesignature←time_signature←"N/A", keyscale←key←scale←"N/A",
duration←length←30; renders a numeric duration as its truncated integer
followed by `" seconds"`; and emits exactly the four newline-terminated
lines in the fixed order bpm, timesignature, keyscale, duration.  The
canonical input with bpm 120, 4/4, C major, duration 30 yields exactly
the expected block. -/
theorem dict_to_meta_string_resolves_and_formats (d : List (String × PyVal)) :
    dict_to_meta_string d =
      meta_block (pyStr (resolve_bpm d)) (pyStr (resolve_timesignature d))
        (pyStr (resolve_keyscale d)) (render_duration (resolve_duration d))
    ∧ dict_to_meta_string
        [("bpm", .int 120), ("timesignature", .str "4/4"),
         ("keyscale", .str "C major"), ("duration", .int 30)] =
      "- bpm: 120\n- timesignature: 4/4\n- keyscale: C major\n- duration: 30 seconds\n" := by
  refine ⟨dict_to_meta_string_unfold d, ?_⟩
  rfl

/-- C10: whenever the resolved duration value (after the
duration←length fallback) is a string `s`, the duration line of
`dict_to_meta_string` is `"- duration: "` followed by `s` verbatim,
with no `" seconds"` suffix and no coercion to the default. -/
theorem dict_to_meta_string_string_duration_verbatim
    (d : List (String × PyVal)) (s : String)
    (h : resolve_duration d = .str s) :
    dict_to_meta_string d =
      meta_block (pyStr (resolve_bpm d)) (pyStr (resolve_timesignature d))
        (pyStr (resolve_keyscale d)) s := by
  rw [dict_to_meta_string_unfold d, h]
  rfl

/-- Witness for C10 at the concrete input `{"duration": "ninety"}`. -/
theorem dict_to_meta_string_string_duration_verbatim_witness :
    dict_to_meta_string [("duration", .str "ninety")] =
      "- bpm: N/A\n- timesignature: N/A\n- keyscale: N/A\n- duration: ninety\n" := by
  have h := dict_to_meta_string_string_duration_verbatim
    [("duration", .str "ninety")] "ninety" (by rfl)
  simpa using h

/-- A raised Python exception, as `audio_utils.py` distinguishes them:
`ValueError` or `TypeError`, each carrying its message. -/
inductive PyErr where
  | valueError (msg : String)
  | typeError (msg : String)
deriving DecidableEq, Repr

/-- `is_silence` from `audio_utils.py`: `audio.abs().max() < threshold`.
The tensor is modelled as the list of its samples; `.max()` on an empty
tensor raises in torch, so the empty buffer maps to `none`. -/
def is_silence (audio : List Rat) (threshold : Rat) : Option Bool :=
  match (audio.map fun x => |x|).max? with
  | some m => some (decide (m < threshold))
  | none => none

/-- The stereo-conversion step of `normalize_audio_to_stereo_48k`:
one channel is duplicated (`audio.repeat(2, 1)`), more than two
channels are cut to the first two (`audio[:2]`), two channels pass
through. -/
def toStereoChannels (audio : List (List Rat)) : List (List Rat) :=
  if audio.length = 1 then audio ++ audio
  else if 2 < audio.length then audio.take 2
  else audio

/-- `normalize_audio_to_stereo_48k` from `audio_utils.py`.  The source
delegates resampling to `torchaudio.functional.resample`; that external
primitive is the explicit parameter `resample` here, invoked exactly
when `sr ≠ target_sr`, after which the stereo conversion runs. -/
def normalize_audio_to_stereo_48k
    (resample : List (List Rat) → Nat → Nat → List (List Rat))
    (audio : List (List Rat)) (sr : Nat) (target_sr : Nat) : List (List Rat) :=
  toStereoChannels (if sr ≠ target_sr then resample audio sr target_sr else audio)

/-- The `audio_code_hints` argument of `normalize_audio_code_hints`:
`None`, a single string, a list (whose items are strings or `None`), or
a value of any other type (for example a `torch.Tensor`), carried with
its type name for the error message. -/
inductive HintsIn where
  | pynone
  | str (s : String)
  | list (xs : List (Option String))
  | other (tyname : String)
deriving DecidableEq, Repr

/-- `normalize_audio_code_hints` from `audio_utils.py`. -/
def normalize_audio_code_hints (audio_code_hints : HintsIn) (batch_size : Nat) :
    Except PyErr (List (Option String)) :=
  match audio_code_hints with
  | .pynone => .ok (List.replicate batch_size none)
  | .str s => .ok (List.replicate batch_size (some s))
  | .list xs =>
    if xs.length = 0 then .ok (List.replicate batch_size none)
    else if xs.length = 1 then .ok (List.replicate batch_size (xs.headD none))
    else if xs.length ≠ batch_size then
      .error (.valueError ("audio_code_hints length (" ++ toString xs.length ++
        ") must be 1 or match batch_size (" ++ toString batch_size ++ ")"))
    else .ok xs
  | .other tyname =>
    .error (.typeError ("audio_code_hints must be str, list, or None, got " ++ tyname))

/-- The `instructions` argument of `normalize_instructions`: `None`, a
single string, a list of strings, or a value of any other type. -/
inductive InstrIn where
  | pynone
  | str (s : String)
  | list (xs : List String)
  | other (tyname : String)
deriving DecidableEq, Repr

/-- `normalize_instructions` from `audio_utils.py`. -/
def normalize_instructions (instructions : InstrIn) (batch_size : Nat)
    (default : Option String) : Except PyErr (List String) :=
  match instructions with
  | .pynone =>
    match default with
    | none => .error (.valueError "instructions and default cannot both be None")
    | some d => .ok (List.replicate batch_size d)
  | .str s => .ok (List.replicate batch_size s)
  | .list xs =>
    if xs.length = 0 then
      match default with
      | none => .error (.valueError "Empty instructions list and no default provided")
      | some d => .ok (List.replicate batch_size d)
    else if xs.length = 1 then .ok (List.replicate batch_size (xs.headD ""))
    else if xs.length ≠ batch_size then
      .error (.valueError ("instructions length (" ++ toString xs.length ++
        ") must be 1 or match batch_size (" ++ toString batch_size ++ ")"))
    else .ok xs
  | .other tyname =>
    .error (.typeError ("instructions must be str, list, or None, got " ++ tyname))

/-- `pad_sequences` from `audio_utils.py`: allocates a
`[len(sequences), max_length]` array of `pad_value` and copies each
sequence into its row up to `min(len(seq), max_length)`.  The source
reads `sequences[0]` for dtype/device, so the empty input raises
(modelled as `none`). -/
def pad_sequences (sequences : List (List Int)) (max_length : Nat)
    (pad_value : Int) : Option (List (List Int)) :=
  match sequences with
  | [] => none
  | _ :: _ => some (sequences.map fun seq =>
      seq.take max_length ++ List.replicate (max_length - seq.length) pad_value)

/-- C4: `is_silence` returns true iff the maximum absolute sample value
`m` across the buffer is strictly less than the threshold; in
particular, when `m` equals the threshold it returns false. -/
theorem is_silence_iff_max_lt (audio : List Rat) (threshold m : Rat)
    (hm : (audio.map fun x => |x|).max? = some m) :
    (is_silence audio threshold = some true ↔ m < threshold)
    ∧ (m = threshold → is_silence audio threshold = some false) := by
  unfold is_silence
  rw [hm]
  refine ⟨by simp, ?_⟩
  intro h
  subst h
  simp

/-- Witness for C4 at the buffer `[1/2, -3/4]` with threshold `1`. -/
theorem is_silence_iff_max_lt_witness :
    is_silence [(1 : Rat)/2, -(3 : Rat)/4] 1 = some true := by
  have h := is_silence_iff_max_lt [(1 : Rat)/2, -(3 : Rat)/4] 1 ((3 : Rat)/4)
    (by
      show some (max |(1 : Rat)/2| |-(3 : Rat)/4|) = some ((3 : Rat)/4)
      norm_num [abs_of_nonneg, abs_of_nonpos, max_def])
  exact h.1.mpr (by norm_num)

/-- C2: for every input and batch size `N`,
`normalize_audio_code_hints` either returns a list of length exactly
`N` or raises: `None` and `[]` give `N` `None`s, a single string and a
one-element list give that element repeated `N` times, a list of length
`N` is returned unchanged, a list of any other length raises a
`ValueError` naming the offending length and the batch size, and any
other input type raises a `TypeError`. -/
theorem normalize_audio_code_hints_cases (N : Nat) :
    (∀ x r, normalize_audio_code_hints x N = .ok r → r.length = N)
    ∧ normalize_audio_code_hints .pynone N = .ok (List.replicate N none)
    ∧ (∀ s, normalize_audio_code_hints (.str s) N = .ok (List.replicate N (some s)))
    ∧ normalize_audio_code_hints (.list []) N = .ok (List.replicate N none)
    ∧ (∀ a, normalize_audio_code_hints (.list [a]) N = .ok (List.replicate N a))
    ∧ (∀ xs, xs.length = N → normalize_audio_code_hints (.list xs) N = .ok xs)
    ∧ (∀ xs, xs.length ≠ 0 → xs.length ≠ 1 → xs.length ≠ N →
        normalize_audio_code_hints (.list xs) N =
          .error (.valueError ("audio_code_hints length (" ++ toString xs.length ++
            ") must be 1 or match batch_size (" ++ toString N ++ ")")))
    ∧ (∀ ty, normalize_audio_code_hints (.other ty) N =
        .error (.typeError ("audio_code_hints must be str, list, or None, got " ++ ty))) := by
  refine ⟨?_, rfl, fun s => rfl, ?_, fun a => rfl, ?_, ?_, fun ty => rfl⟩
  · intro x r h
    cases x with
    | pynone =>
      simp only [normalize_audio_code_hints, Except.ok.injEq] at h
      simp [← h]
    | str s =>
      simp only [normalize_audio_code_hints, Except.ok.injEq] at h
      simp [← h]
    | list xs =>
      simp only [normalize_audio_code_hints] at h
      split at h
      · simp only [Except.ok.injEq] at h
        simp [← h]
      · split at h
        · simp only [Except.ok.injEq] at h
          simp [← h]
        · split at h
          · exact absurd h (by simp)
          · rename_i hne
            simp only [Except.ok.injEq] at h
            subst h
            omega
    | other ty =>
      simp [normalize_audio_code_hints] at h
  · simp [normalize_audio_code_hints]
  · intro xs hlen
    rcases xs with _ | ⟨a, _ | ⟨b, t⟩⟩
    · simp only [List.length_nil] at hlen
      simp [normalize_audio_code_hints, ← hlen]
    · simp only [List.length_cons, List.length_nil] at hlen
      simp [normalize_audio_code_hints, ← hlen]
    · have hlen' : t.length + 1 + 1 = N := by simpa using hlen
      have hN0 : N ≠ 0 := by omega
      have hN1 : N ≠ 1 := by omega
      simp [normalize_audio_code_hints, hlen, hN0, hN1]
  · intro xs h0 h1 hN
    simp [normalize_audio_code_hints, h0, h1, hN]

/-- Witness for C2: a length-3 list against batch size 2 raises the
`ValueError` naming both numbers. -/
theorem normalize_audio_code_hints_cases_witness :
    normalize_audio_code_hints (.list [some "a", none, some "b"]) 2 =
      .error (.valueError
        "audio_code_hints length (3) must be 1 or match batch_size (2)") := by
  have h := (normalize_audio_code_hints_cases 2).2.2.2.2.2.2.1
    [some "a", none, some "b"] (by decide) (by decide) (by decide)
  rw [h]
  rfl

/-- C6: `normalize_instructions` follows the same expansion rules as
`normalize_audio_code_hints`, except that a `None` value and an empty
list fall back to the default repeated `batch_size` times, and it
raises a `ValueError` when the value is `None` or an empty list and the
default is also absent. -/
theorem normalize_instructions_cases (N : Nat) (d : String) :
    (∀ x dflt r, normalize_instructions x N dflt = .ok r → r.length = N)
    ∧ normalize_instructions .pynone N (some d) = .ok (List.replicate N d)
    ∧ normalize_instructions .pynone N none =
        .error (.valueError "instructions and default cannot both be None")
    ∧ (∀ s dflt, normalize_instructions (.str s) N dflt = .ok (List.replicate N s))
    ∧ normalize_instructions (.list []) N (some d) = .ok (List.replicate N d)
    ∧ normalize_instructions (.list []) N none =
        .error (.valueError "Empty instructions list and no default provided")
    ∧ (∀ a dflt, normalize_instructions (.list [a]) N dflt = .ok (List.replicate N a))
    ∧ (∀ xs dflt, xs.length = N → 1 ≤ xs.length →
        normalize_instructions (.list xs) N dflt = .ok xs)
    ∧ (∀ xs dflt, xs.length ≠ 0 → xs.length ≠ 1 → xs.length ≠ N →
        normalize_instructions (.list xs) N dflt =
          .error (.valueError ("instructions length (" ++ toString xs.length ++
            ") must be 1 or match batch_size (" ++ toString N ++ ")")))
    ∧ (∀ ty dflt, normalize_instructions (.other ty) N dflt =
        .error (.typeError ("instructions must be str, list, or None, got " ++ ty))) := by
  refine ⟨?_, rfl, rfl, fun s dflt => rfl, rfl, rfl, fun a dflt => rfl, ?_, ?_,
    fun ty dflt => rfl⟩
  · intro x dflt r h
    cases x with
    | pynone =>
      cases dflt with
      | none => simp [normalize_instructions] at h
      | some d' =>
        simp only [normalize_instructions, Except.ok.injEq] at h
        simp [← h]
    | str s =>
      simp only [normalize_instructions, Except.ok.injEq] at h
      simp [← h]
    | list xs =>
      simp only [normalize_instructions] at h
      split at h
      · cases dflt with
        | none => simp at h
        | some d' =>
          simp only [Except.ok.injEq] at h
          simp [← h]
      · split at h
        · simp only [Except.ok.injEq] at h
          simp [← h]
        · split at h
          · exact absurd h (by simp)
          · rename_i hne
            simp only [Except.ok.injEq] at h
            subst h
            omega
    | other ty =>
      simp [normalize_instructions] at h
  · intro xs dflt hlen hpos
    rcases xs with _ | ⟨a, _ | ⟨b, t⟩⟩
    · simp at hpos
    · simp only [List.length_cons, List.length_nil] at hlen
      simp [normalize_instructions, ← hlen]
    · have hlen' : t.length + 1 + 1 = N := by simpa using hlen
      have hN0 : N ≠ 0 := by omega
      have hN1 : N ≠ 1 := by omega
      simp [normalize_instructions, hlen, hN0, hN1]
  · intro xs dflt h0 h1 hN
    simp [normalize_instructions, h0, h1, hN]

/-- Witness for C6: an empty list with an available default expands to
the default, and a length-3 list against batch size 2 raises the
`ValueError` naming both numbers. -/
theorem normalize_instructions_cases_witness :
    normalize_instructions (.list []) 3 (some "gen") = .ok ["gen", "gen", "gen"]
    ∧ normalize_instructions (.list ["a", "b", "c"]) 2 none =
        .error (.valueError
          "instructions length (3) must be 1 or match batch_size (2)") := by
  constructor
  · have h := (normalize_instructions_cases 3 "gen").2.2.2.2.1
    simpa using h
  · have h := (normalize_instructions_cases 2 "x").2.2.2.2.2.2.2.2.1
      ["a", "b", "c"] none (by decide) (by decide) (by decide)
    rw [h]
    rfl

/-- C5: for every non-empty list of sequences, `pad_sequences` returns
a `[len(sequences), max_length]` array whose row `i` holds the first
`min(len(seq_i), max_length)` elements of sequence `i` followed by
`pad_value`; longer sequences are truncated, never extended; the
concrete example from the spec holds. -/
theorem pad_sequences_shape_and_rows (sequences : List (List Int))
    (max_length : Nat) (pad_value : Int) (h : sequences ≠ []) :
    ∃ out, pad_sequences sequences max_length pad_value = some out
      ∧ out.length = sequences.length
      ∧ (∀ i : Nat, out[i]? = (sequences[i]?).map fun (seq : List Int) =>
          seq.take max_length ++ List.replicate (max_length - seq.length) pad_value)
      ∧ (∀ (i : Nat) (row : List Int), out[i]? = some row → row.length = max_length)
      ∧ pad_sequences [[1, 2, 3], [4, 5]] 4 0 = some [[1, 2, 3, 0], [4, 5, 0, 0]] := by
  rcases sequences with _ | ⟨s, ss⟩
  · exact absurd rfl h
  refine ⟨_, rfl, by simp, fun i => by rw [List.getElem?_map], ?_, by decide⟩
  intro i row hrow
  simp only [List.getElem?_map] at hrow
  rcases h' : (s :: ss)[i]? with _ | seq
  · rw [h'] at hrow
    simp at hrow
  · rw [h'] at hrow
    simp only [Option.map_some'] at hrow
    injection hrow with hrow
    subst hrow
    simp only [List.length_append, List.length_take, List.length_replicate]
    omega

/-- Witness for C5 at the spec's concrete example. -/
theorem pad_sequences_shape_and_rows_witness :
    pad_sequences [[1, 2, 3], [4, 5]] 4 0 = some [[1, 2, 3, 0], [4, 5, 0, 0]] := by
  obtain ⟨out, h1, h2, h3, h4, h5⟩ :=
    pad_sequences_shape_and_rows [[1, 2, 3], [4, 5]] 4 0 (by decide)
  exact h5

theorem toStereoChannels_length (b : List (List Rat)) (hb : 1 ≤ b.length) :
    (toStereoChannels b).length = 2 := by
  unfold toStereoChannels
  split
  · rename_i h1
    simp [h1]
  · split
    · rename_i h1 h2
      simp only [List.length_take]
      omega
    · rename_i h1 h2
      omega

/-- C3 (amended: buffers with at least one channel, resampling assumed
channel-count preserving): `normalize_audio_to_stereo_48k` duplicates a
1-channel buffer into 2 identical channels, keeps only the first 2
channels of a buffer with more than 2, passes a 2-channel buffer
through unchanged, and its result has exactly 2 channels. -/
theorem normalize_audio_to_stereo_48k_channels
    (resample : List (List Rat) → Nat → Nat → List (List Rat))
    (hres : ∀ a s t, (resample a s t).length = a.length)
    (audio : List (List Rat)) (sr target_sr : Nat)
    (hch : 1 ≤ audio.length) :
    (normalize_audio_to_stereo_48k resample audio sr target_sr).length = 2
    ∧ (∀ c, audio = [c] → sr = target_sr →
        normalize_audio_to_stereo_48k resample audio sr target_sr = [c, c])
    ∧ (audio.length = 2 → sr = target_sr →
        normalize_audio_to_stereo_48k resample audio sr target_sr = audio)
    ∧ (2 < audio.length → sr = target_sr →
        normalize_audio_to_stereo_48k resample audio sr target_sr = audio.take 2) := by
  refine ⟨?_, ?_, ?_, ?_⟩
  · unfold normalize_audio_to_stereo_48k
    apply toStereoChannels_length
    split
    · rw [hres]
      exact hch
    · exact hch
  · intro c hc hsr
    subst hc
    subst hsr
    simp [normalize_audio_to_stereo_48k, toStereoChannels]
  · intro h2 hsr
    subst hsr
    unfold normalize_audio_to_stereo_48k
    rw [if_neg (by simp)]
    unfold toStereoChannels
    rw [if_neg (by omega), if_neg (by omega)]
  · intro h2 hsr
    subst hsr
    unfold normalize_audio_to_stereo_48k
    rw [if_neg (by simp)]
    unfold toStereoChannels
    rw [if_neg (by omega), if_pos h2]

/-- Counterexample to C3 as stated: a zero-channel buffer (at the
target rate, so no resampling) passes through with zero channels, so
the result does not always have exactly 2 channels. -/
theorem normalize_audio_to_stereo_48k_zero_channels :
    (normalize_audio_to_stereo_48k (fun a _ _ => a)
      ([] : List (List Rat)) 48000 48000).length ≠ 2 := by
  decide

/-- Witness for C3 (amended): a mono buffer is duplicated into two
identical channels. -/
theorem normalize_audio_to_stereo_48k_channels_witness :
    normalize_audio_to_stereo_48k (fun a _ _ => a) [[(1 : Rat)]] 48000 48000 =
      [[(1 : Rat)], [(1 : Rat)]] :=
  (normalize_audio_to_stereo_48k_channels (fun a _ _ => a)
    (fun _ _ _ => rfl) [[(1 : Rat)]] 48000 48000 (by decide)).2.1 [(1 : Rat)] rfl rfl

theorem toStereoChannels_idem (b : List (List Rat)) :
    toStereoChannels (toStereoChannels b) = toStereoChannels b := by
  match b with
  | [] => rfl
  | [a] => rfl
  | [a, c] => rfl
  | a :: c :: x :: t =>
    have h1 : toStereoChannels (a :: c :: x :: t) = [a, c] := by
      unfold toStereoChannels
      rw [if_neg (by simp only [List.length_cons]; omega),
        if_pos (by simp only [List.length_cons]; omega)]
      rfl
    rw [h1]
    rfl

/-- C7: applying the stereo normalizer twice with the same target rate,
the second time at source rate equal to the target rate, yields the
same result as applying it once. -/
theorem normalize_audio_to_stereo_48k_idempotent
    (resample : List (List Rat) → Nat → Nat → List (List Rat))
    (audio : List (List Rat)) (sr target_sr : Nat) :
    normalize_audio_to_stereo_48k resample
        (normalize_audio_to_stereo_48k resample audio sr target_sr) target_sr target_sr
      = normalize_audio_to_stereo_48k resample audio sr target_sr := by
  unfold normalize_audio_to_stereo_48k
  rw [if_neg (by simp)]
  exact toStereoChannels_idem _

/-- Whitespace as stripped by Python `int(s)` around the digits. -/
def isPySpace (c : Char) : Bool :=
  c == ' ' || c == '\t' || c == '\n' || c == '\r'

/-- Value of a non-empty all-digit character sequence; `none` when the
sequence is empty or contains a non-digit. -/
def digitsVal (cs : List Char) : Option Nat :=
  if cs.isEmpty then none
  else cs.foldl (fun acc c =>
    acc.bind fun n => if c.isDigit then some (n * 10 + (c.toNat - 48)) else none)
    (some 0)

/-- Models the Python builtin `int(s)` applied to a string, as used by
`build_metadata_dict`: surrounding whitespace, then an optional minus
sign and decimal digits, parse to an integer; anything else raises
(here: fails).  (Python additionally accepts a leading plus sign and
underscore digit separators; those forms do not occur here.) -/
def pyParseInt (s : String) : Option Int :=
  match ((s.data.dropWhile isPySpace).reverse.dropWhile isPySpace).reverse with
  | '-' :: cs => (digitsVal cs).map fun n => -(n : Int)
  | cs => (digitsVal cs).map fun n => (n : Int)

/-- `build_metadata_dict` from `metadata_builder.py`.  `bpm` is `None`
or a dynamic value (int, float, or str); `key_scale` and
`time_signature` are `None` or strings (Python truthiness makes the
empty string falsy); `duration` is `None` or a value stored as-is.
The result is the dict in its insertion order. -/
def build_metadata_dict (bpm : Option PyVal) (key_scale : Option String)
    (time_signature : Option String) (duration : Option PyVal) :
    List (String × PyVal) :=
  let bpmv : PyVal :=
    match bpm with
    | some (.str s) =>
      match pyParseInt s with
      | some n => .int n
      | none => .str "N/A"
    | some v => v
    | none => .str "N/A"
  let ks : PyVal :=
    match key_scale with
    | some s => if s = "" then .str "N/A" else .str s
    | none => .str "N/A"
  let ts : PyVal :=
    match time_signature with
    | some s => if s = "" then .str "N/A" else .str s
    | none => .str "N/A"
  let dur : PyVal :=
    match duration with
    | some v => v
    | none => .int 30
  [("bpm", bpmv), ("keyscale", ks), ("timesignature", ts), ("duration", dur)]

/-- C8: `build_metadata_dict` stores a `None` bpm as `"N/A"`, a string
bpm that parses as an integer as that integer, a string bpm that fails
to parse as the literal `"N/A"`, and a non-string bpm as-is; an empty
or `None` key_scale / time_signature is stored as `"N/A"` and otherwise
passed through; a `None` duration is stored as `30` and any other
duration is passed through unmodified. -/
theorem build_metadata_dict_fields (bpm : Option PyVal)
    (key_scale time_signature : Option String) (duration : Option PyVal) :
    (bpm = none →
      dictGet (build_metadata_dict bpm key_scale time_signature duration) "bpm" =
        some (.str "N/A"))
    ∧ (∀ s n, bpm = some (.str s) → pyParseInt s = some n →
        dictGet (build_metadata_dict bpm key_scale time_signature duration) "bpm" =
          some (.int n))
    ∧ (∀ s, bpm = some (.str s) → pyParseInt s = none →
        dictGet (build_metadata_dict bpm key_scale time_signature duration) "bpm" =
          some (.str "N/A"))
    ∧ (∀ v, bpm = some v → (∀ s, v ≠ .str s) →
        dictGet (build_metadata_dict bpm key_scale time_signature duration) "bpm" =
          some v)
    ∧ (key_scale = none ∨ key_scale = some "" →
        dictGet (build_metadata_dict bpm key_scale time_signature duration) "keyscale" =
          some (.str "N/A"))
    ∧ (∀ s, key_scale = some s → s ≠ "" →
        dictGet (build_metadata_dict bpm key_scale time_signature duration) "keyscale" =
          some (.str s))
    ∧ (time_signature = none ∨ time_signature = some "" →
        dictGet (build_metadata_dict bpm key_scale time_signature duration)
          "timesignature" = some (.str "N/A"))
    ∧ (∀ s, time_signature = some s → s ≠ "" →
        dictGet (build_metadata_dict bpm key_scale time_signature duration)
          "timesignature" = some (.str s))
    ∧ (duration = none →
        dictGet (build_metadata_dict bpm key_scale time_signature duration) "duration" =
          some (.int 30))
    ∧ (∀ v, duration = some v →
        dictGet (build_metadata_dict bpm key_scale time_signature duration) "duration" =
          some v) := by
  refine ⟨?_, ?_, ?_, ?_, ?_, ?_, ?_, ?_, ?_, ?_⟩
  · intro h
    subst h
    rfl
  · intro s n h hp
    subst h
    simp [build_metadata_dict, dictGet, hp]
  · intro s h hp
    subst h
    simp [build_metadata_dict, dictGet, hp]
  · intro v h hs
    subst h
    cases v with
    | int n => rfl
    | float q => rfl
    | str s => exact absurd rfl (hs s)
    | none => rfl
  · rintro (h | h) <;> subst h <;> rfl
  · intro s h hne
    subst h
    simp [build_metadata_dict, dictGet, hne]
  · rintro (h | h) <;> subst h <;> rfl
  · intro s h hne
    subst h
    simp [build_metadata_dict, dictGet, hne]
  · intro h
    subst h
    rfl
  · intro v h
    subst h
    rfl

/-- Witness for C8: the string bpm `"120"` is stored as the integer
`120`, and the missing duration defaults to `30`. -/
theorem build_metadata_dict_fields_witness :
    dictGet (build_metadata_dict (some (.str "120")) (some "C major") (some "4/4") none)
        "bpm" = some (.int 120)
    ∧ dictGet (build_metadata_dict (some (.str "120")) (some "C major") (some "4/4") none)
        "duration" = some (.int 30) := by
  refine ⟨?_, ?_⟩
  · exact (build_metadata_dict_fields (some (.str "120")) (some "C major") (some "4/4")
      none).2.1 "120" 120 rfl (by decide)
  · exact (build_metadata_dict_fields (some (.str "120")) (some "C major") (some "4/4")
      none).2.2.2.2.2.2.2.2.1 rfl

/-- A metadata item as consumed by `extract_caption_and_language`: a
pre-formatted string, a mapping (whose caption/language entries are the
strings this function consumes), or `None`.  The source only checks
`isinstance(meta, dict)`. -/
inductive MetaIn where
  | str (s : String)
  | dict (d : List (String × String))
  | pynone
deriving DecidableEq, Repr

/-- First-match lookup in a string-valued mapping: `meta[k]`, with
`k in meta` as `(lookupStr d k).isSome`. -/
def lookupStr (d : List (String × String)) (k : String) : Option String :=
  (d.find? (fun kv => kv.1 == k)).map (fun kv => kv.2)

/-- `extract_caption_and_language` from `metadata_builder.py`, the
per-index loop rendered as structural recursion: at each step the
caption defaults to the head of `captions` (empty string when
exhausted), the language to the head of `vocal_languages` (`"none"`
when exhausted), and a dict meta overrides an empty caption and a
`"none"` language from its `"caption"` / `"language"` entries. -/
def extract_caption_and_language : List MetaIn → List String → List String →
    List String × List String
  | [], _, _ => ([], [])
  | meta :: metas, captions, vocal_languages =>
    let caption := captions.headD ""
    let language := vocal_languages.headD "none"
    let caption :=
      match meta with
      | .dict d =>
        match lookupStr d "caption" with
        | some c => if caption = "" then c else caption
        | none => caption
      | _ => caption
    let language :=
      match meta with
      | .dict d =>
        match lookupStr d "language" with
        | some l => if language = "none" then l else language
        | none => language
      | _ => language
    let rest := extract_caption_and_language metas captions.tail vocal_languages.tail
    (caption :: rest.1, language :: rest.2)

/-- Spec-side caption rule at one index: the caption defaults to the
given value and is overridden by a dict meta's `"caption"` entry only
when the caption so far is empty. -/
def captionRule (meta : MetaIn) (dflt : String) : String :=
  match meta with
  | .dict d =>
    match lookupStr d "caption" with
    | some c => if dflt = "" then c else dflt
    | none => dflt
  | _ => dflt

/-- Spec-side language rule at one index: the language defaults to the
given value and is overridden by a dict meta's `"language"` entry only
when the language so far is `"none"`. -/
def languageRule (meta : MetaIn) (dflt : String) : String :=
  match meta with
  | .dict d =>
    match lookupStr d "language" with
    | some l => if dflt = "none" then l else dflt
    | none => dflt
  | _ => dflt

theorem extract_caption_and_language_cons (m : MetaIn) (ms : List MetaIn)
    (cs ls : List String) :
    extract_caption_and_language (m :: ms) cs ls =
      (captionRule m (cs.headD "") ::
        (extract_caption_and_language ms cs.tail ls.tail).1,
       languageRule m (ls.headD "none") ::
        (extract_caption_and_language ms cs.tail ls.tail).2) := by
  cases m <;> rfl

/-- C9: both outputs of `extract_caption_and_language` have length
equal to `metas.length`; at each index `i` the caption is `captions[i]`
(empty string when out of range) overridden by a dict meta's
`"caption"` entry only when empty so far, and the language is
`vocal_languages[i]` (`"none"` when out of range) overridden by a dict
meta's `"language"` entry only when `"none"` so far. -/
theorem extract_caption_and_language_spec (metas : List MetaIn)
    (captions vocal_languages : List String) :
    (extract_caption_and_language metas captions vocal_languages).1.length = metas.length
    ∧ (extract_caption_and_language metas captions vocal_languages).2.length = metas.length
    ∧ (∀ i : Nat, i < metas.length →
        (extract_caption_and_language metas captions vocal_languages).1.getD i "" =
          captionRule (metas.getD i .pynone) (captions.getD i "")
        ∧ (extract_caption_and_language metas captions vocal_languages).2.getD i "" =
          languageRule (metas.getD i .pynone) (vocal_languages.getD i "none")) := by
  induction metas generalizing captions vocal_languages with
  | nil => exact ⟨rfl, rfl, fun i hi => absurd hi (by simp)⟩
  | cons m ms ih =>
    obtain ⟨ih1, ih2, ih3⟩ := ih captions.tail vocal_languages.tail
    rw [extract_caption_and_language_cons]
    refine ⟨by simpa using ih1, by simpa using ih2, ?_⟩
    intro i hi
    cases i with
    | zero =>
      have hc : captions.getD 0 "" = captions.headD "" := by cases captions <;> rfl
      have hl : vocal_languages.getD 0 "none" = vocal_languages.headD "none" := by
        cases vocal_languages <;> rfl
      constructor
      · simp only [List.getD_cons_zero]
        rw [hc]
      · simp only [List.getD_cons_zero]
        rw [hl]
    | succ i =>
      have hi' : i < ms.length := by
        simp only [List.length_cons] at hi
        omega
      obtain ⟨h1, h2⟩ := ih3 i hi'
      have hc : captions.tail.getD i "" = captions.getD (i + 1) "" := by
        cases captions <;> rfl
      have hl : vocal_languages.tail.getD i "none" =
          vocal_languages.getD (i + 1) "none" := by
        cases vocal_languages <;> rfl
      constructor
      · simp only [List.getD_cons_succ]
        rw [← hc]
        exact h1
      · simp only [List.getD_cons_succ]
        rw [← hl]
        exact h2

/-- Witness for C9: one dict meta with caption and language entries,
empty caption/language inputs; the dict overrides both defaults. -/
theorem extract_caption_and_language_spec_witness :
    (extract_caption_and_language [.dict [("caption", "hello"), ("language", "en")]]
      [] []).1.getD 0 "" = "hello"
    ∧ (extract_caption_and_language [.dict [("caption", "hello"), ("language", "en")]]
      [] []).2.getD 0 "" = "en" := by
  obtain ⟨h1, h2⟩ := (extract_caption_and_language_spec
    [.dict [("caption", "hello"), ("language", "en")]] [] []).2.2 0 (by decide)
  constructor
  · rw [h1]
    rfl
  · rw [h2]
    rfl
